import Mathlib

/-!
Shallow embedding of `UnixSignalListener.hpp` (class `UnixSignalListener`).

Modelling decisions, each tied to a line of the source:

* A signal number (`int signum`) is an `Int`.  On the target platform
  `sigaddset` accepts exactly the signal numbers `1 .. 64` and fails with
  `EINVAL` (returning `-1`, leaving the set untouched) otherwise.
* A `std::function<void()>` handler is `Option Nat`: `none` is the null
  `std::function` (`nullptr` in the source), `some id` an arbitrary callable
  identified by an opaque id.  Invoking a callable is recorded as an event;
  the body of a user callback is outside the model.
* `sigset_t` is a `List Int` of the signal numbers contained in the set.
* `std::map<int, HandlerPair>` is an association list with in-place
  insert-or-assign (`operator[]` followed by assignment, line 83).
* Exceptions become an error outcome carried in the result; `pthread_sigmask`
  with `SIG_SETMASK` and a valid set pointer succeeds on the target platform
  (its only failure mode is an invalid `how` argument), so the two
  `runtime_error` throws guarding it (lines 70 and 104) are never taken and
  the success path is modelled.
* `sigtimedwait` (line 109) is the sole source of nondeterminism: `listen`
  is parametrised by a finite trace of its outcomes, each either a delivered
  signal number (`ret > 0`) or `ret = -1` together with `errno`.
* Observable actions (mask installations, callback invocations) are
  collected into a list of events so that theorems can speak about what a
  run performed and in what order.
-/

abbrev Signum := Int

/-- A `std::function<void()>` value: `none` is the null function. -/
abbrev Handler := Option Nat

/-- A `sigset_t`: the list of signal numbers the set contains. -/
abbrev SigSet := List Signum

/-- Signal numbers accepted by `sigaddset` on the target platform. -/
def validSignal (s : Signum) : Bool :=
  1 ≤ s && s ≤ 64

/-- `sigaddset(&set, s)`: `none` models the `-1` return (with `errno = EINVAL`,
set unmodified); `some` is the updated set. -/
def sigaddset (set : SigSet) (s : Signum) : Option SigSet :=
  if validSignal s then some (if set.contains s then set else s :: set) else none

/-- The set built by `sigfillset`: every valid signal number. -/
def fullSigSet : SigSet :=
  (List.range 64).map (fun n => (n : Int) + 1)

/-- `HandlerPair` from line 196: the callback and the `terminate` flag. -/
abbrev HandlerPair := Handler × Bool

/-- Lookup in the `std::map` modelled as an association list. -/
def lookupKey : List (Signum × HandlerPair) → Signum → Option HandlerPair
  | [], _ => none
  | (k, v) :: rest, s => if k = s then some v else lookupKey rest s

/-- `mHandlers.count(signum)`: number of entries stored under a key. -/
def countKey (m : List (Signum × HandlerPair)) (s : Signum) : Nat :=
  m.countP (fun p => p.1 == s)

/-- `mHandlers[signum] = v`: insert-or-assign on the association list. -/
def mapInsert : List (Signum × HandlerPair) → Signum → HandlerPair → List (Signum × HandlerPair)
  | [], k, v => [(k, v)]
  | (k', v') :: rest, k, v =>
      if k' = k then (k, v) :: rest else (k', v') :: mapInsert rest k v

/-- Error taxonomy: one constructor per distinct `throw` site of the class. -/
inductive SLError where
  /-- line 80, `setHandler`: `sigaddset` rejected the signal number. -/
  | invalidSignalError
  /-- line 185, `checkRequirements`: `listen` before a successful `init`. -/
  | notInitializedError
  /-- line 191, `checkRequirements`: nothing registered. -/
  | noHandlersError
  /-- line 154, `sigtimedwaitErrorHandler`: `errno == EINVAL`. -/
  | timeoutConfigError
  /-- line 163, `signalProcessing`: registry entry count differs from 1. -/
  | internalConsistencyError
deriving Repr, DecidableEq

/-- The `errno` values `sigtimedwaitErrorHandler` distinguishes; `other`
covers every remaining value, which the handler silently ignores. -/
inductive Errno where
  | eagain
  | eintr
  | einval
  | other
deriving Repr, DecidableEq

/-- One outcome of the `sigtimedwait` call on line 109: a delivered signal
number (`ret > 0`) or a failure together with `errno`. -/
inductive WaitResult where
  | signal (signum : Signum)
  | fail (e : Errno)
deriving Repr, DecidableEq

/-- Observable actions a run performs, in order. -/
inductive Event where
  /-- `pthread_sigmask(SIG_SETMASK, blocked, nullptr)`: the thread's blocked
  set becomes exactly `blocked`. -/
  | setMask (blocked : SigSet)
  /-- Invocation of a non-null registered callback (line 168). -/
  | handlerCall (id : Nat)
  /-- Invocation of `mTimeoutHandler` (line 146). -/
  | timeoutCall (h : Handler)
deriving Repr, DecidableEq

/-- Events produced by calling a `Handler`-typed callback guarded by the
`!= nullptr` test on line 166. -/
def callbackEvents (h : Handler) : List Event :=
  match h with
  | some id => [Event.handlerCall id]
  | none => []

/-- The data members of class `UnixSignalListener` (lines 195-202). -/
structure UnixSignalListener where
  mHandlers : List (Signum × HandlerPair)
  mTimeoutHandler : Handler
  mSetHandlers : SigSet
  mTimeoutSpec : Nat
  mIsInited : Bool
deriving Repr, DecidableEq

namespace UnixSignalListener

/-- The default constructor (lines 125-130): empty set, empty map, the empty
default timeout callback (a real callable, id `0`), `mTimeoutSpec = {600, 0}`,
`mIsInited = false`. -/
def new : UnixSignalListener :=
  { mHandlers := []
    mTimeoutHandler := some 0
    mSetHandlers := []
    mTimeoutSpec := 600
    mIsInited := false }

/-- `init()` (lines 63-74): block every signal, then set `mIsInited`.  Returns
the new state and the mask installation performed. -/
def init (l : UnixSignalListener) : UnixSignalListener × List Event :=
  ({ l with mIsInited := true }, [Event.setMask fullSigSet])

/-- `setHandler(signum, handler, terminate)` (lines 76-84): `sigaddset` into
`mSetHandlers`, throwing on an invalid signal before the map is touched, then
insert-or-assign into `mHandlers`. -/
def setHandler (l : UnixSignalListener) (signum : Signum) (handler : Handler)
    (terminate : Bool) : Except SLError UnixSignalListener :=
  match sigaddset l.mSetHandlers signum with
  | none => .error .invalidSignalError
  | some s =>
      .ok { l with
              mSetHandlers := s
              mHandlers := mapInsert l.mHandlers signum (handler, terminate) }

/-- `setTerminateSignal(signum)` (line 86): `setHandler(signum, nullptr, true)`. -/
def setTerminateSignal (l : UnixSignalListener) (signum : Signum) :
    Except SLError UnixSignalListener :=
  l.setHandler signum none true

/-- `setSigIgnore(signum)` (line 88): `setHandler(signum, nullptr, false)`. -/
def setSigIgnore (l : UnixSignalListener) (signum : Signum) :
    Except SLError UnixSignalListener :=
  l.setHandler signum none false

/-- `setTimeoutHandler(timeout, handler)` (lines 90-94). -/
def setTimeoutHandler (l : UnixSignalListener) (timeout : Nat) (handler : Handler) :
    UnixSignalListener :=
  { l with mTimeoutSpec := timeout, mTimeoutHandler := handler }

/-- `sigtimedwaitErrorHandler()` (lines 141-156), given the `errno` of the
failed wait: `EAGAIN` invokes the timeout callback, `EINTR` and every
unlisted `errno` do nothing, `EINVAL` throws. -/
def sigtimedwaitErrorHandler (l : UnixSignalListener) (e : Errno) :
    Except SLError (List Event) :=
  match e with
  | .eagain => .ok [Event.timeoutCall l.mTimeoutHandler]
  | .eintr => .ok []
  | .einval => .error .timeoutConfigError
  | .other => .ok []

/-- `signalProcessing(signum)` (lines 158-179): throw unless exactly one
registry entry exists, call the callback when non-null, return `1` for a
terminating entry and `0` otherwise. -/
def signalProcessing (l : UnixSignalListener) (signum : Signum) :
    Except SLError (List Event × Int) :=
  if countKey l.mHandlers signum ≠ 1 then .error .internalConsistencyError
  else
    match lookupKey l.mHandlers signum with
    | none => .error .internalConsistencyError
    | some (cb, term) => .ok (callbackEvents cb, if term then 1 else 0)

/-- `checkRequirements()` (lines 181-193). -/
def checkRequirements (l : UnixSignalListener) : Except SLError Unit :=
  if !l.mIsInited then .error .notInitializedError
  else if l.mSetHandlers.isEmpty || l.mHandlers.isEmpty then .error .noHandlersError
  else .ok ()

/-- How a modelled run of the `while (true)` loop ended: `terminated` is the
`break` after a terminating handler, `outOfTrace` means the supplied trace of
wait outcomes was exhausted with the loop still waiting, `failed` is an
uncaught exception. -/
inductive ListenOutcome where
  | terminated
  | outOfTrace
  | failed (e : SLError)
deriving Repr, DecidableEq

/-- The `while (true)` loop of `listen()` (lines 107-122), driven by a trace
of `sigtimedwait` outcomes: `ret <= 0` goes through the error handler and
continues, a delivered signal goes through `signalProcessing`, breaking when
it returns `1`. -/
def listenLoop (l : UnixSignalListener) : List WaitResult → List Event × ListenOutcome
  | [] => ([], .outOfTrace)
  | WaitResult.fail e :: rest =>
      match l.sigtimedwaitErrorHandler e with
      | .error err => ([], .failed err)
      | .ok evs =>
          let (evs2, out) := l.listenLoop rest
          (evs ++ evs2, out)
  | WaitResult.signal s :: rest =>
      match l.signalProcessing s with
      | .error err => ([], .failed err)
      | .ok (evs, r) =>
          if r = 1 then (evs, .terminated)
          else
            let (evs2, out) := l.listenLoop rest
            (evs ++ evs2, out)

/-- `listen()` (lines 96-123): `checkRequirements`, then
`pthread_sigmask(SIG_SETMASK, &mSetHandlers, nullptr)` — the thread's blocked
set becomes exactly `mSetHandlers` — then the wait loop. -/
def listen (l : UnixSignalListener) (trace : List WaitResult) :
    List Event × ListenOutcome :=
  match l.checkRequirements with
  | .error e => ([], .failed e)
  | .ok _ =>
      let (evs, out) := l.listenLoop trace
      (Event.setMask l.mSetHandlers :: evs, out)

end UnixSignalListener

/-- A call of one of the public configuration operations. -/
inductive Op where
  | opInit
  | opSetHandler (signum : Signum) (h : Handler) (terminate : Bool)
  | opSetTerminateSignal (signum : Signum)
  | opSetSigIgnore (signum : Signum)
  | opSetTimeoutHandler (timeout : Nat) (h : Handler)
deriving Repr, DecidableEq

/-- Effect of a public operation on the object.  A registration call whose
`sigaddset` fails throws before any member is written, so the object is
unchanged. -/
def applyOp (l : UnixSignalListener) : Op → UnixSignalListener
  | .opInit => (l.init).1
  | .opSetHandler s h t =>
      match l.setHandler s h t with
      | .ok l' => l'
      | .error _ => l
  | .opSetTerminateSignal s =>
      match l.setTerminateSignal s with
      | .ok l' => l'
      | .error _ => l
  | .opSetSigIgnore s =>
      match l.setSigIgnore s with
      | .ok l' => l'
      | .error _ => l
  | .opSetTimeoutHandler t h => l.setTimeoutHandler t h

/-- The state after a sequence of public operations on a fresh object. -/
def reach (ops : List Op) : UnixSignalListener :=
  ops.foldl applyOp UnixSignalListener.new

/-- The blocked sets installed by the `pthread_sigmask` calls of a run, in
order. -/
def installedMasks (evs : List Event) : List SigSet :=
  evs.filterMap (fun e =>
    match e with
    | Event.setMask b => some b
    | _ => none)

/-- The two-structures-in-sync invariant guarded by the defensive throw on
line 163: no signal has more than one registry entry, and every signal in
`mSetHandlers` has exactly one. -/
def registryInv (l : UnixSignalListener) : Prop :=
  (∀ x : Signum, countKey l.mHandlers x ≤ 1) ∧
  (∀ x ∈ l.mSetHandlers, countKey l.mHandlers x = 1)

/-- Reading of the masking claim for a given listener and trace: every valid
signal outside `mSetHandlers` belongs to every blocked set the run installs
(that is, all unregistered signals stay blocked). -/
def allOthersRemainBlocked (l : UnixSignalListener) (trace : List WaitResult) : Prop :=
  ∀ B ∈ installedMasks (l.listen trace).1,
    ∀ s : Signum, validSignal s = true → s ∉ l.mSetHandlers → s ∈ B

/-- A concrete configured listener: initialized, one non-terminating handler
(callable id `1`) registered for signal `10`. -/
def sampleListener : UnixSignalListener :=
  reach [Op.opInit, Op.opSetHandler 10 (some 1) false]

/-!
Helper lemmas about the association-list registry.
-/

theorem lookupKey_mapInsert_self (m : List (Signum × HandlerPair)) (k : Signum)
    (v : HandlerPair) : lookupKey (mapInsert m k v) k = some v := by
  induction m with
  | nil => simp [mapInsert, lookupKey]
  | cons hd tl ih =>
      by_cases h : hd.1 = k
      · simp [mapInsert, h, lookupKey]
      · simp [mapInsert, h, lookupKey, ih]

theorem lookupKey_mapInsert_ne (m : List (Signum × HandlerPair)) (k x : Signum)
    (v : HandlerPair) (h : k ≠ x) :
    lookupKey (mapInsert m k v) x = lookupKey m x := by
  induction m with
  | nil => simp [mapInsert, lookupKey, h]
  | cons hd tl ih =>
      by_cases hh : hd.1 = k
      · simp [mapInsert, hh, lookupKey, h]
      · simp [mapInsert, hh, lookupKey, ih]

theorem countKey_cons_eq (hd : Signum × HandlerPair) (tl : List (Signum × HandlerPair))
    (s : Signum) (h : hd.1 = s) : countKey (hd :: tl) s = countKey tl s + 1 := by
  simp [countKey, List.countP_cons, h]

theorem countKey_cons_ne (hd : Signum × HandlerPair) (tl : List (Signum × HandlerPair))
    (s : Signum) (h : hd.1 ≠ s) : countKey (hd :: tl) s = countKey tl s := by
  simp [countKey, List.countP_cons, h]

theorem countKey_mapInsert_self (m : List (Signum × HandlerPair)) (k : Signum)
    (v : HandlerPair) (hle : countKey m k ≤ 1) :
    countKey (mapInsert m k v) k = 1 := by
  induction m with
  | nil => simp [mapInsert, countKey]
  | cons hd tl ih =>
      by_cases hh : hd.1 = k
      · rw [countKey_cons_eq hd tl k hh] at hle
        have htl : countKey tl k = 0 := by omega
        show countKey (if hd.1 = k then (k, v) :: tl else (hd.1, hd.2) :: mapInsert tl k v) k = 1
        rw [if_pos hh, countKey_cons_eq (k, v) tl k rfl, htl]
      · rw [countKey_cons_ne hd tl k hh] at hle
        show countKey (if hd.1 = k then (k, v) :: tl else (hd.1, hd.2) :: mapInsert tl k v) k = 1
        rw [if_neg hh, countKey_cons_ne (hd.1, hd.2) (mapInsert tl k v) k hh, ih hle]

theorem countKey_mapInsert_ne (m : List (Signum × HandlerPair)) (k x : Signum)
    (v : HandlerPair) (h : k ≠ x) :
    countKey (mapInsert m k v) x = countKey m x := by
  induction m with
  | nil => simp [mapInsert, countKey, List.countP_cons, h]
  | cons hd tl ih =>
      by_cases hh : hd.1 = k
      · simp [mapInsert, hh, countKey, List.countP_cons, h]
      · simp [mapInsert, hh, countKey, List.countP_cons] at ih ⊢
        omega

theorem lookupKey_isSome_of_countKey_pos (m : List (Signum × HandlerPair))
    (s : Signum) (h : 0 < countKey m s) : (lookupKey m s).isSome := by
  induction m with
  | nil => simp [countKey] at h
  | cons hd tl ih =>
      by_cases hh : hd.1 = s
      · simp [lookupKey, hh]
      · have : 0 < countKey tl s := by
          simpa [countKey, List.countP_cons, hh] using h
        simpa [lookupKey, hh] using ih this

theorem signalProcessing_eq_of_entry (l : UnixSignalListener) (s : Signum)
    (cb : Handler) (term : Bool) (hc : countKey l.mHandlers s = 1)
    (hl : lookupKey l.mHandlers s = some (cb, term)) :
    l.signalProcessing s = .ok (callbackEvents cb, if term then 1 else 0) := by
  simp [UnixSignalListener.signalProcessing, hc, hl]

/-!
Invariant machinery: the registration operations keep `mSetHandlers` and
`mHandlers` in sync.
-/

theorem registryInv_new : registryInv UnixSignalListener.new := by
  constructor
  · intro x
    simp [UnixSignalListener.new, countKey]
  · intro x hx
    simp [UnixSignalListener.new] at hx

theorem registryInv_setHandler (l l' : UnixSignalListener) (s : Signum)
    (hh : Handler) (t : Bool) (h : registryInv l)
    (hok : l.setHandler s hh t = .ok l') : registryInv l' := by
  by_cases hv : validSignal s
  · have hok' : l' = { l with
        mSetHandlers :=
          if s ∈ l.mSetHandlers then l.mSetHandlers else s :: l.mSetHandlers
        mHandlers := mapInsert l.mHandlers s (hh, t) } := by
      simp [UnixSignalListener.setHandler, sigaddset, hv] at hok
      exact hok.symm
    subst hok'
    obtain ⟨h1, h2⟩ := h
    constructor
    · intro x
      show countKey (mapInsert l.mHandlers s (hh, t)) x ≤ 1
      by_cases hx : s = x
      · subst hx
        rw [countKey_mapInsert_self _ _ _ (h1 s)]
      · rw [countKey_mapInsert_ne _ _ _ _ hx]
        exact h1 x
    · intro x hx
      show countKey (mapInsert l.mHandlers s (hh, t)) x = 1
      by_cases hxs : s = x
      · subst hxs
        exact countKey_mapInsert_self _ _ _ (h1 s)
      · rw [countKey_mapInsert_ne _ _ _ _ hxs]
        apply h2
        have hx' : x ∈ (if s ∈ l.mSetHandlers then l.mSetHandlers
            else s :: l.mSetHandlers) := hx
        by_cases hc : s ∈ l.mSetHandlers
        · simpa [hc] using hx'
        · rw [if_neg hc] at hx'
          rcases List.mem_cons.mp hx' with h' | h'
          · exact absurd h'.symm hxs
          · exact h'
  · simp [UnixSignalListener.setHandler, sigaddset, hv] at hok

theorem registryInv_applyOp (l : UnixSignalListener) (op : Op)
    (h : registryInv l) : registryInv (applyOp l op) := by
  cases op with
  | opInit => exact h
  | opSetHandler s hh t =>
      cases hset : l.setHandler s hh t with
      | ok l' =>
          have heq : applyOp l (Op.opSetHandler s hh t) = l' := by
            simp [applyOp, hset]
          rw [heq]
          exact registryInv_setHandler l l' s hh t h hset
      | error e =>
          have heq : applyOp l (Op.opSetHandler s hh t) = l := by
            simp [applyOp, hset]
          rw [heq]
          exact h
  | opSetTerminateSignal s =>
      cases hset : l.setTerminateSignal s with
      | ok l' =>
          have heq : applyOp l (Op.opSetTerminateSignal s) = l' := by
            simp [applyOp, hset]
          rw [heq]
          exact registryInv_setHandler l l' s none true h hset
      | error e =>
          have heq : applyOp l (Op.opSetTerminateSignal s) = l := by
            simp [applyOp, hset]
          rw [heq]
          exact h
  | opSetSigIgnore s =>
      cases hset : l.setSigIgnore s with
      | ok l' =>
          have heq : applyOp l (Op.opSetSigIgnore s) = l' := by
            simp [applyOp, hset]
          rw [heq]
          exact registryInv_setHandler l l' s none false h hset
      | error e =>
          have heq : applyOp l (Op.opSetSigIgnore s) = l := by
            simp [applyOp, hset]
          rw [heq]
          exact h
  | opSetTimeoutHandler t hh => exact h

theorem registryInv_foldl (ops : List Op) :
    ∀ l : UnixSignalListener, registryInv l → registryInv (ops.foldl applyOp l) := by
  induction ops with
  | nil => intro l h; exact h
  | cons op rest ih => intro l h; exact ih _ (registryInv_applyOp l op h)

theorem registryInv_reach (ops : List Op) : registryInv (reach ops) :=
  registryInv_foldl ops UnixSignalListener.new registryInv_new

/-!
Lemmas about the wait loop.
-/

theorem checkRequirements_error_cases (l : UnixSignalListener) (e : SLError)
    (h : l.checkRequirements = .error e) :
    e = SLError.notInitializedError ∨ e = SLError.noHandlersError := by
  unfold UnixSignalListener.checkRequirements at h
  split at h
  · cases h
    left
    rfl
  · split at h
    · cases h
      right
      rfl
    · cases h

theorem signalProcessing_no_mask (l : UnixSignalListener) (s : Signum)
    (evs : List Event) (r : Int) (h : l.signalProcessing s = .ok (evs, r)) :
    installedMasks evs = [] := by
  unfold UnixSignalListener.signalProcessing at h
  split at h
  · cases h
  · split at h
    · cases h
    · cases h
      rename_i cb term heq
      cases cb <;> simp [callbackEvents, installedMasks]

theorem errorHandler_no_mask (l : UnixSignalListener) (e : Errno)
    (evs : List Event) (h : l.sigtimedwaitErrorHandler e = .ok evs) :
    installedMasks evs = [] := by
  cases e with
  | eagain =>
      simp [UnixSignalListener.sigtimedwaitErrorHandler] at h
      subst h
      simp [installedMasks]
  | eintr =>
      simp [UnixSignalListener.sigtimedwaitErrorHandler] at h
      subst h
      simp [installedMasks]
  | einval => simp [UnixSignalListener.sigtimedwaitErrorHandler] at h
  | other =>
      simp [UnixSignalListener.sigtimedwaitErrorHandler] at h
      subst h
      simp [installedMasks]

theorem installedMasks_append (a b : List Event) :
    installedMasks (a ++ b) = installedMasks a ++ installedMasks b := by
  simp [installedMasks]

theorem listenLoop_no_mask_events (l : UnixSignalListener) (trace : List WaitResult) :
    installedMasks (l.listenLoop trace).1 = [] := by
  induction trace with
  | nil => simp [UnixSignalListener.listenLoop, installedMasks]
  | cons w rest ih =>
      cases w with
      | signal s =>
          cases hsp : l.signalProcessing s with
          | error e => simp [UnixSignalListener.listenLoop, hsp, installedMasks]
          | ok p =>
              obtain ⟨evs, r⟩ := p
              have hevs := signalProcessing_no_mask l s evs r hsp
              by_cases hr : r = 1
              · simp [UnixSignalListener.listenLoop, hsp, hr, hevs]
              · simp [UnixSignalListener.listenLoop, hsp, hr,
                  installedMasks_append, hevs, ih]
      | fail e =>
          cases herr : l.sigtimedwaitErrorHandler e with
          | error err => simp [UnixSignalListener.listenLoop, herr, installedMasks]
          | ok evs =>
              have hevs := errorHandler_no_mask l e evs herr
              simp [UnixSignalListener.listenLoop, herr,
                installedMasks_append, hevs, ih]

theorem listenLoop_ne_consistency (l : UnixSignalListener)
    (hinv : ∀ s ∈ l.mSetHandlers, countKey l.mHandlers s = 1)
    (trace : List WaitResult)
    (hT : ∀ s : Signum, WaitResult.signal s ∈ trace → s ∈ l.mSetHandlers) :
    (l.listenLoop trace).2 ≠ .failed .internalConsistencyError := by
  induction trace with
  | nil => simp [UnixSignalListener.listenLoop]
  | cons w rest ih =>
      have hrest : ∀ s : Signum, WaitResult.signal s ∈ rest → s ∈ l.mSetHandlers :=
        fun s hs => hT s (by simp [hs])
      cases w with
      | signal s =>
          have hs : s ∈ l.mSetHandlers := hT s (by simp)
          have hc : countKey l.mHandlers s = 1 := hinv s hs
          have hsome : (lookupKey l.mHandlers s).isSome :=
            lookupKey_isSome_of_countKey_pos _ _ (by omega)
          obtain ⟨⟨cb, term⟩, hl⟩ := Option.isSome_iff_exists.mp hsome
          have hsp := signalProcessing_eq_of_entry l s cb term hc hl
          by_cases ht : term
          · simp [UnixSignalListener.listenLoop, hsp, ht]
          · simp [UnixSignalListener.listenLoop, hsp, ht]
            exact ih hrest
      | fail e =>
          cases e with
          | eagain =>
              simp [UnixSignalListener.listenLoop,
                UnixSignalListener.sigtimedwaitErrorHandler]
              exact ih hrest
          | eintr =>
              simp [UnixSignalListener.listenLoop,
                UnixSignalListener.sigtimedwaitErrorHandler]
              exact ih hrest
          | einval =>
              simp [UnixSignalListener.listenLoop,
                UnixSignalListener.sigtimedwaitErrorHandler]
          | other =>
              simp [UnixSignalListener.listenLoop,
                UnixSignalListener.sigtimedwaitErrorHandler]
              exact ih hrest

theorem setHandler_ok_fields (l l' : UnixSignalListener) (s : Signum) (hh : Handler)
    (t : Bool) (hok : l.setHandler s hh t = .ok l') :
    validSignal s = true ∧
    l'.mHandlers = mapInsert l.mHandlers s (hh, t) ∧
    l'.mSetHandlers = (if s ∈ l.mSetHandlers then l.mSetHandlers else s :: l.mSetHandlers) ∧
    l'.mTimeoutHandler = l.mTimeoutHandler ∧
    l'.mIsInited = l.mIsInited := by
  by_cases hv : validSignal s
  · simp [UnixSignalListener.setHandler, sigaddset, hv] at hok
    subst hok
    simp [hv]
  · simp [UnixSignalListener.setHandler, sigaddset, hv] at hok

theorem installedMasks_setMask_cons (b : SigSet) (evs : List Event) :
    installedMasks (Event.setMask b :: evs) = b :: installedMasks evs := by
  simp [installedMasks]

/-!
The claims.
-/

/-- C1 (counterexample to the claim as stated): on a listener that registered
only signal `10`, starting `listen` installs `[10]` as the blocked set, so the
valid signal `15`, which is not in `mSetHandlers`, does not remain blocked —
refuting that every signal outside `SignalSet` stays blocked for the loop. -/
theorem C1_counterexample_not_all_others_blocked :
    ¬ allOthersRemainBlocked sampleListener [] := by
  intro h
  have h15 := h sampleListener.mSetHandlers (by decide) 15 (by decide) (by decide)
  exact absurd h15 (by decide)

/-- C1 (amended): once the precondition check passes, `listen` performs
exactly one signal-mask change before the wait loop and never another: it
installs `mSetHandlers` itself as the blocked set, so the registered signals
stay blocked (deliverable only through the synchronous wait) and every signal
outside `mSetHandlers` is unblocked for the duration of the loop. -/
theorem C1_listen_installs_signal_set_as_blocked_mask (l : UnixSignalListener)
    (trace : List WaitResult) (h : l.checkRequirements = .ok ()) :
    installedMasks (l.listen trace).1 = [l.mSetHandlers] := by
  unfold UnixSignalListener.listen
  rw [h]
  show installedMasks
      (Event.setMask l.mSetHandlers :: (l.listenLoop trace).1) = [l.mSetHandlers]
  rw [installedMasks_setMask_cons, listenLoop_no_mask_events]

/-- Witness for the amended C1 at a concrete configured listener. -/
theorem C1_listen_installs_signal_set_as_blocked_mask_witness :
    installedMasks (sampleListener.listen []).1 = [sampleListener.mSetHandlers] :=
  C1_listen_installs_signal_set_as_blocked_mask sampleListener [] rfl

/-- C2: every state reachable through the public operations keeps
`mSetHandlers` and `mHandlers` in sync — each signal in the set has a registry
entry — so on any trace whose delivered signals all lie in `mSetHandlers`
(the guarantee `sigtimedwait` gives for the set it was handed), `listen`
never fails with the internal-consistency error. -/
theorem C2_signal_set_registry_consistent (ops : List Op) (trace : List WaitResult)
    (hT : ∀ s : Signum, WaitResult.signal s ∈ trace → s ∈ (reach ops).mSetHandlers) :
    (∀ s ∈ (reach ops).mSetHandlers, (lookupKey (reach ops).mHandlers s).isSome) ∧
    ((reach ops).listen trace).2 ≠ .failed .internalConsistencyError := by
  obtain ⟨h1, h2⟩ := registryInv_reach ops
  refine ⟨fun s hs => lookupKey_isSome_of_countKey_pos _ _ (by
    have := h2 s hs
    omega), ?_⟩
  cases hc : (reach ops).checkRequirements with
  | error e =>
      rcases checkRequirements_error_cases _ _ hc with rfl | rfl <;>
        simp [UnixSignalListener.listen, hc]
  | ok u =>
      have h3 := listenLoop_ne_consistency (reach ops) h2 trace hT
      simpa [UnixSignalListener.listen, hc] using h3

/-- Witness for C2 at a concrete operation sequence and trace. -/
theorem C2_signal_set_registry_consistent_witness :
    ((reach [Op.opInit, Op.opSetHandler 10 (some 1) false]).listen
        [WaitResult.signal 10, WaitResult.fail Errno.eagain]).2 ≠
      UnixSignalListener.ListenOutcome.failed SLError.internalConsistencyError :=
  (C2_signal_set_registry_consistent [Op.opInit, Op.opSetHandler 10 (some 1) false]
    [WaitResult.signal 10, WaitResult.fail Errno.eagain]
    (by
      intro s hs
      simp at hs
      subst hs
      decide)).2

/-- C3: when the delivered signal's entry is terminating, its callback (when
present) is invoked exactly once — the event list is exactly the single mask
installation followed by that one invocation — and `listen` returns
terminated without touching the rest of the trace. -/
theorem C3_terminating_signal_stops_loop (l : UnixSignalListener) (s : Signum)
    (cb : Handler) (rest : List WaitResult)
    (hc : countKey l.mHandlers s = 1)
    (hl : lookupKey l.mHandlers s = some (cb, true))
    (hreq : l.checkRequirements = .ok ()) :
    l.listen (WaitResult.signal s :: rest) =
      (Event.setMask l.mSetHandlers :: callbackEvents cb,
        UnixSignalListener.ListenOutcome.terminated) := by
  have hsp := signalProcessing_eq_of_entry l s cb true hc hl
  unfold UnixSignalListener.listen
  rw [hreq]
  simp [UnixSignalListener.listenLoop, hsp]

/-- Witness for C3: one terminating handler for signal `10`, a second pending
delivery left unprocessed. -/
theorem C3_terminating_signal_stops_loop_witness :
    (reach [Op.opInit, Op.opSetHandler 10 (some 1) true]).listen
        [WaitResult.signal 10, WaitResult.signal 10] =
      (Event.setMask (reach [Op.opInit, Op.opSetHandler 10 (some 1) true]).mSetHandlers ::
          callbackEvents (some 1),
        UnixSignalListener.ListenOutcome.terminated) :=
  C3_terminating_signal_stops_loop (reach [Op.opInit, Op.opSetHandler 10 (some 1) true])
    10 (some 1) [WaitResult.signal 10] (by decide) (by decide) rfl

/-- C4: re-registering the same signal leaves exactly one registry entry,
holding the second `(callback, terminate)` pair, and a subsequent delivery of
the signal invokes only the second callback. -/
theorem C4_reregistration_last_write_wins (l l1 l2 : UnixSignalListener)
    (s : Signum) (a b : Handler) (ta tb : Bool)
    (hcount : countKey l.mHandlers s ≤ 1)
    (h1 : l.setHandler s a ta = .ok l1) (h2 : l1.setHandler s b tb = .ok l2) :
    countKey l2.mHandlers s = 1 ∧
    lookupKey l2.mHandlers s = some (b, tb) ∧
    l2.listenLoop [WaitResult.signal s] =
      (callbackEvents b,
        if tb then UnixSignalListener.ListenOutcome.terminated
        else UnixSignalListener.ListenOutcome.outOfTrace) := by
  obtain ⟨-, hm1, -, -, -⟩ := setHandler_ok_fields l l1 s a ta h1
  obtain ⟨-, hm2, -, -, -⟩ := setHandler_ok_fields l1 l2 s b tb h2
  have hc1 : countKey l1.mHandlers s = 1 := by
    rw [hm1]
    exact countKey_mapInsert_self _ _ _ hcount
  have hc2 : countKey l2.mHandlers s = 1 := by
    rw [hm2]
    exact countKey_mapInsert_self _ _ _ (by omega)
  have hl2 : lookupKey l2.mHandlers s = some (b, tb) := by
    rw [hm2]
    exact lookupKey_mapInsert_self _ _ _
  have hsp := signalProcessing_eq_of_entry l2 s b tb hc2 hl2
  refine ⟨hc2, hl2, ?_⟩
  cases tb with
  | true => simp [UnixSignalListener.listenLoop, hsp]
  | false => simp [UnixSignalListener.listenLoop, hsp]

/-- Witness for C4: register callable `2` then callable `3` for signal `10`
on a fresh object; only callable `3` remains and is the one invoked. -/
theorem C4_reregistration_last_write_wins_witness :
    countKey (applyOp (applyOp UnixSignalListener.new (Op.opSetHandler 10 (some 2) false))
        (Op.opSetHandler 10 (some 3) true)).mHandlers 10 = 1 ∧
    lookupKey (applyOp (applyOp UnixSignalListener.new (Op.opSetHandler 10 (some 2) false))
        (Op.opSetHandler 10 (some 3) true)).mHandlers 10 = some (some 3, true) ∧
    (applyOp (applyOp UnixSignalListener.new (Op.opSetHandler 10 (some 2) false))
        (Op.opSetHandler 10 (some 3) true)).listenLoop [WaitResult.signal 10] =
      (callbackEvents (some 3), UnixSignalListener.ListenOutcome.terminated) :=
  C4_reregistration_last_write_wins UnixSignalListener.new
    (applyOp UnixSignalListener.new (Op.opSetHandler 10 (some 2) false))
    (applyOp (applyOp UnixSignalListener.new (Op.opSetHandler 10 (some 2) false))
      (Op.opSetHandler 10 (some 3) true))
    10 (some 2) (some 3) false true (by decide) rfl rfl

/-- C5: a wait that times out (EAGAIN) invokes the configured timeout
callback and the loop then continues with the remaining trace; the timeout
itself never terminates the run and never produces an error. -/
theorem C5_timeout_invokes_callback_and_continues (l : UnixSignalListener)
    (rest : List WaitResult) :
    l.listenLoop (WaitResult.fail Errno.eagain :: rest) =
      (Event.timeoutCall l.mTimeoutHandler :: (l.listenLoop rest).1,
        (l.listenLoop rest).2) := by
  simp [UnixSignalListener.listenLoop, UnixSignalListener.sigtimedwaitErrorHandler]

/-- C6: `listen` checks its preconditions before any mask change: on an
uninitialized object it produces no events at all and fails with
`notInitializedError`; initialized but with an empty registry it fails with
`noHandlersError`. -/
theorem C6_run_precondition_checks (l : UnixSignalListener) (trace : List WaitResult) :
    (l.mIsInited = false →
      l.listen trace = ([], .failed .notInitializedError)) ∧
    (l.mIsInited = true → l.mHandlers = [] →
      l.listen trace = ([], .failed .noHandlersError)) := by
  constructor
  · intro h
    simp [UnixSignalListener.listen, UnixSignalListener.checkRequirements, h]
  · intro h1 h2
    simp [UnixSignalListener.listen, UnixSignalListener.checkRequirements, h1, h2]

/-- Witness for C6: a fresh object, and a fresh object after `init` only. -/
theorem C6_run_precondition_checks_witness :
    UnixSignalListener.new.listen [] =
      ([], UnixSignalListener.ListenOutcome.failed SLError.notInitializedError) ∧
    (applyOp UnixSignalListener.new Op.opInit).listen [] =
      ([], UnixSignalListener.ListenOutcome.failed SLError.noHandlersError) :=
  ⟨(C6_run_precondition_checks UnixSignalListener.new []).1 rfl,
   (C6_run_precondition_checks (applyOp UnixSignalListener.new Op.opInit) []).2 rfl rfl⟩

/-- C7: `setTerminateSignal` is exactly `setHandler` with the absent callback
and `terminate = true`, `setSigIgnore` exactly `setHandler` with the absent
callback and `terminate = false`, and delivering a termination signal stops
the loop with no callback invocation at all. -/
theorem C7_convenience_registrations_equivalent (l l' : UnixSignalListener)
    (s : Signum) (rest : List WaitResult)
    (hcount : countKey l.mHandlers s ≤ 1)
    (hok : l.setTerminateSignal s = .ok l') :
    l.setHandler s none true = .ok l' ∧
    l.setSigIgnore s = l.setHandler s none false ∧
    l'.listenLoop (WaitResult.signal s :: rest) =
      ([], UnixSignalListener.ListenOutcome.terminated) := by
  refine ⟨hok, rfl, ?_⟩
  obtain ⟨-, hm, -, -, -⟩ := setHandler_ok_fields l l' s none true hok
  have hc1 : countKey l'.mHandlers s = 1 := by
    rw [hm]
    exact countKey_mapInsert_self _ _ _ hcount
  have hl : lookupKey l'.mHandlers s = some (none, true) := by
    rw [hm]
    exact lookupKey_mapInsert_self _ _ _
  have hsp := signalProcessing_eq_of_entry l' s none true hc1 hl
  simp [UnixSignalListener.listenLoop, hsp, callbackEvents]

/-- Witness for C7: a termination signal registered on a fresh object. -/
theorem C7_convenience_registrations_equivalent_witness :
    UnixSignalListener.new.setHandler 10 none true =
      .ok (applyOp UnixSignalListener.new (Op.opSetTerminateSignal 10)) ∧
    UnixSignalListener.new.setSigIgnore 10 =
      UnixSignalListener.new.setHandler 10 none false ∧
    (applyOp UnixSignalListener.new (Op.opSetTerminateSignal 10)).listenLoop
        [WaitResult.signal 10, WaitResult.signal 10] =
      ([], UnixSignalListener.ListenOutcome.terminated) :=
  C7_convenience_registrations_equivalent UnixSignalListener.new
    (applyOp UnixSignalListener.new (Op.opSetTerminateSignal 10))
    10 [WaitResult.signal 10] (by decide) rfl

/-- C8: a wait interrupted by a signal outside the registered set (EINTR) is
silently absorbed: no error, no termination, no callback — the run continues
exactly as the remaining trace dictates. -/
theorem C8_unrelated_signal_absorbed (l : UnixSignalListener)
    (rest : List WaitResult) :
    l.listenLoop (WaitResult.fail Errno.eintr :: rest) = l.listenLoop rest := by
  simp [UnixSignalListener.listenLoop, UnixSignalListener.sigtimedwaitErrorHandler]

/-- C9: an invalid-argument report from the wait (EINVAL, malformed timeout)
aborts the run with `timeoutConfigError` no matter what the rest of the trace
holds: nothing after it is retried or absorbed, and the error surfaces from
`listen` to its caller. -/
theorem C9_invalid_timeout_fatal (l : UnixSignalListener) (rest : List WaitResult)
    (h : l.checkRequirements = .ok ()) :
    l.listen (WaitResult.fail Errno.einval :: rest) =
      ([Event.setMask l.mSetHandlers],
        UnixSignalListener.ListenOutcome.failed SLError.timeoutConfigError) := by
  unfold UnixSignalListener.listen
  rw [h]
  simp [UnixSignalListener.listenLoop, UnixSignalListener.sigtimedwaitErrorHandler]

/-- Witness for C9: the configured sample listener with a pending delivery
after the malformed-timeout report, which is never processed. -/
theorem C9_invalid_timeout_fatal_witness :
    sampleListener.listen [WaitResult.fail Errno.einval, WaitResult.signal 10] =
      ([Event.setMask sampleListener.mSetHandlers],
        UnixSignalListener.ListenOutcome.failed SLError.timeoutConfigError) :=
  C9_invalid_timeout_fatal sampleListener [WaitResult.signal 10] rfl

/-- C10: registering an invalid signal number fails with
`invalidSignalError` raised before either structure is touched, so the
dispatcher state after the failed call is exactly the state before it. -/
theorem C10_failed_registration_atomic (l : UnixSignalListener) (s : Signum)
    (hh : Handler) (t : Bool) (hv : validSignal s = false) :
    l.setHandler s hh t = .error .invalidSignalError ∧
    applyOp l (Op.opSetHandler s hh t) = l := by
  have h1 : l.setHandler s hh t = .error .invalidSignalError := by
    simp [UnixSignalListener.setHandler, sigaddset, hv]
  exact ⟨h1, by simp [applyOp, h1]⟩

/-- Witness for C10: signal `0` is invalid; the configured sample listener is
unchanged by the failed registration. -/
theorem C10_failed_registration_atomic_witness :
    sampleListener.setHandler 0 (some 7) false = .error .invalidSignalError ∧
    applyOp sampleListener (Op.opSetHandler 0 (some 7) false) = sampleListener :=
  C10_failed_registration_atomic sampleListener 0 (some 7) false (by decide)
